import Mathlib

/-!
# Verification of the openff-interchange collection / combination / export core

This file gives a shallow embedding, in Lean 4, of the parts of the
repository that the specification talks about:

* `openff/system/components/system.py` — the `System` container: its inner
  data, the box validator, `__getitem__`, `__add__` (container combination),
  and `_check_supported_handlers`;
* `openff/system/interop/openmm.py` — `_process_nonbonded_forces`;
* `openff/interchange/common/_nonbonded.py` — `ElectrostaticsCollection.charges`;
* `openff/interchange/interop/openmm/_virtual_sites.py` —
  `_create_openmm_virtual_site`.

Python `dict`s are modelled as ordered association lists with Python
`dict.update` semantics (an existing key keeps its position, a new key is
appended).  Machine reals are modelled as `ℚ`; the relevant numpy
operations (`vstack`, `atleast_2d`, broadcasting a 3-vector against
`np.eye(3)`, elementwise `==` under `np.all`) are modelled explicitly.
A numpy object array cell may hold the Python object `None`, which matters
for `np.vstack([None, None])`; cells are therefore a sum of a rational and
a `None` marker.
-/

/-! ## Python dictionaries as ordered association lists -/

/-- Lookup in a Python `dict`, modelled as first match in an association
list (a real `dict` has no duplicate keys, so first match is the match). -/
def dictLookup {α β : Type} [DecidableEq α] (d : List (α × β)) (k : α) : Option β :=
  match d with
  | [] => none
  | (k', v) :: rest => if k' = k then some v else dictLookup rest k

/-- Python `dict.update` with a single key: an existing key keeps its
position and gets the new value, a new key is appended at the end. -/
def dictUpdate {α β : Type} [DecidableEq α] (d : List (α × β)) (k : α) (v : β) :
    List (α × β) :=
  match d with
  | [] => [(k, v)]
  | (k', v') :: rest =>
    if k' = k then (k', v) :: rest else (k', v') :: dictUpdate rest k v

/-! ## The numpy fragment the source uses -/

/-- A cell of a numpy array: a number, or the Python object `None`
(object-dtype arrays arise from `np.vstack([None, None])`). -/
inductive NpCell : Type
  | rat (q : ℚ)
  | pyNone
  deriving DecidableEq, Repr

/-- A 2-D numpy array as a list of rows (rows of a well-formed array all
have the same length). -/
def NpMat : Type := List (List NpCell)

instance : DecidableEq NpMat := by unfold NpMat; infer_instance

/-- `np.atleast_2d` as applied by `np.vstack` to each argument:
`None` becomes the 1×1 object array `[[None]]`; stored positions are
already 2-D and pass through unchanged. -/
def npAtleast2d (p : Option NpMat) : NpMat :=
  match p with
  | none => [[NpCell.pyNone]]
  | some m => m

/-- Column count of a 2-D array (numpy arrays are rectangular, so the
first row is representative). -/
def npCols (m : NpMat) : ℕ :=
  match m with
  | [] => 0
  | r :: _ => r.length

/-! ## Python-level errors -/

/-- The Python exception classes raised by the embedded code. -/
inductive PyErrClass : Type
  | lookupError
  | keyError
  | indexError
  | valueError
  | typeError
  | notImplementedError
  | invalidBoxError
  | unsupportedCutoffMethodError
  deriving DecidableEq, Repr

/-- A raised Python exception: its class and its message. -/
structure PyErr : Type where
  cls : PyErrClass
  msg : String
  deriving DecidableEq, Repr

/-- `np.vstack` on two 2-D arrays: succeeds iff the column counts agree
(`ValueError` otherwise), and concatenates the rows. -/
def npVstack2 (a b : NpMat) : Except PyErr NpMat :=
  if npCols a = npCols b then Except.ok (List.append a b)
  else Except.error ⟨PyErrClass.valueError, "all the input array dimensions must match"⟩

/-- The check `np.all(self_copy.box == other.box)` from `System.__add__`
(line 417): `None == None` is Python `True`; comparing an array with `None`
gives an all-`False` array; two arrays compare elementwise. -/
def boxEqPy (a b : Option (List (List ℚ))) : Bool :=
  match a, b with
  | none, none => true
  | some x, some y => decide (x = y)
  | _, _ => false

/-! ## Data model of `openff/system/components/system.py` -/

/-- `openff.system.models.TopologyKey` as used by `System.__add__`: an
ordered tuple of atom indices plus the multiplicity discriminator. -/
structure TopologyKey : Type where
  atom_indices : List ℕ
  mult : Option ℕ
  deriving DecidableEq, Repr

/-- A `PotentialHandler` as `System.__add__` reads it: a slot map from
topology keys to potential-key identities, a potential store from identity
to the potential (modelled as its ordered list of numeric parameter
values), and — for the Electrostatics handler — the charge table.
Potential-key identities are modelled by their string id. -/
structure PotentialHandler : Type where
  slot_map : List (TopologyKey × String)
  potentials : List (String × List ℚ)
  charges : List (TopologyKey × ℚ)
  deriving DecidableEq, Repr

/-- `System.InnerSystem`: the handler registry, the topology (modelled by
its `mdtop.n_atoms` atom count, the only topology datum `__add__` reads),
the box, and the positions. -/
structure InnerData : Type where
  handlers : List (String × PotentialHandler)
  nAtoms : ℕ
  box : Option (List (List ℚ))
  positions : Option NpMat
  deriving DecidableEq

/-- A Python `System` object: its own object identity `oid` and the
reference `inner` to its `_inner_data` on the heap.  The heap is a
dictionary from references to `InnerData` values. -/
structure SystemObj : Type where
  oid : ℕ
  inner : ℕ
  deriving DecidableEq, Repr

/-! ## `InnerSystem.validate_box` (system.py lines 77-87) -/

/-- A numpy array of rationals, 1-D or 2-D, as passed to the box setter. -/
inductive NDArray : Type
  | a1 (v : List ℚ)
  | a2 (m : List (List ℚ))
  deriving DecidableEq, Repr

/-- Column count of a 2-D rational array. -/
def npColsQ (m : List (List ℚ)) : ℕ :=
  match m with
  | [] => 0
  | r :: _ => r.length

/-- `val.shape` of a rational array. -/
def npShape : NDArray → List ℕ
  | NDArray.a1 v => [v.length]
  | NDArray.a2 m => [m.length, npColsQ m]

/-- The identity matrix `np.eye(3)`. -/
def npEye3 : List (List ℚ) := [[1, 0, 0], [0, 1, 0], [0, 0, 1]]

/-- Broadcasting a vector against a matrix, `v * m`: entry `(i, j)` is
`v j * m i j`. -/
def broadcastVecMat (v : List ℚ) (m : List (List ℚ)) : List (List ℚ) :=
  m.map (fun row => List.zipWith (fun a b => a * b) v row)

/-- `val * np.eye(3)` for either array rank (elementwise for 2-D). -/
def npMulEye3 : NDArray → NDArray
  | NDArray.a1 v => NDArray.a2 (broadcastVecMat v npEye3)
  | NDArray.a2 m =>
    NDArray.a2 (List.zipWith (fun r e => List.zipWith (fun a b => a * b) r e) m npEye3)

/-- `InnerSystem.validate_box`: `None` passes through, a `(3, 3)` array is
stored as given, a `(3,)` array is expanded to `val * np.eye(3)` (the
diagonal matrix), and any other shape raises `InvalidBoxError`. -/
def validate_box (val : Option NDArray) : Except PyErr (Option NDArray) :=
  match val with
  | none => Except.ok none
  | some arr =>
    if npShape arr = [3, 3] then Except.ok (some arr)
    else if npShape arr = [3] then Except.ok (some (npMulEye3 arr))
    else Except.error ⟨PyErrClass.invalidBoxError, ""⟩

/-! ## `System.__getitem__` (system.py lines 349-366) -/

/-- A Python value passed as the subscript: a string, or (representative of
any non-string) an integer. -/
inductive PyVal : Type
  | pyStr (s : String)
  | pyInt (n : ℤ)
  deriving DecidableEq, Repr

/-- What `System.__getitem__` can return. -/
inductive SysComponent : Type
  | positionsC (p : Option NpMat)
  | boxC (b : Option (List (List ℚ)))
  | handlerC (h : PotentialHandler)
  deriving DecidableEq

/-- Message of the non-string-key `LookupError` (line 352; the Python
message also interpolates the item and its type). -/
def onlyStrLookupMsg : String :=
  "Only str arguments can be currently be used for lookups."

/-- Message of the missing-component `LookupError` (line 363), which
enumerates the registered handler names (the Python message renders the
list of keys; we render it as a comma-separated enumeration). -/
def missingComponentMsgOf (handlerNames : List String) (item : String) : String :=
  "Could not find component " ++ item ++
    ". This object has the following potential handlers registered: " ++
    String.intercalate ", " handlerNames

/-- The missing-component message for a given system. -/
def missingComponentMsg (s : InnerData) (item : String) : String :=
  missingComponentMsgOf (s.handlers.map Prod.fst) item

/-- `System.__getitem__`: non-string keys raise a `LookupError`; then
`"positions"`, `"box"`/`"box_vectors"`, registered handler names, and
finally the enumerated-missing-component `LookupError`. -/
def sysGetItem (s : InnerData) (item : PyVal) : Except PyErr SysComponent :=
  match item with
  | PyVal.pyInt _ => Except.error ⟨PyErrClass.lookupError, onlyStrLookupMsg⟩
  | PyVal.pyStr str =>
    if str = "positions" then Except.ok (SysComponent.positionsC s.positions)
    else if str = "box" ∨ str = "box_vectors" then Except.ok (SysComponent.boxC s.box)
    else
      match dictLookup s.handlers str with
      | some h => Except.ok (SysComponent.handlerC h)
      | none => Except.error ⟨PyErrClass.lookupError, missingComponentMsg s str⟩

/-! ## `System._check_supported_handlers` (system.py lines 41-51, 126-140) -/

/-- `_SUPPORTED_SMIRNOFF_HANDLERS`. -/
def supportedSmirnoffHandlers : List String :=
  ["Constraints", "Bonds", "Angles", "ProperTorsions", "ImproperTorsions",
   "vdW", "Electrostatics", "LibraryCharges", "ChargeIncrementModel"]

/-- The loop of `_check_supported_handlers`: skip any handler in
`{"ToolkitAM1BCC"}`, collect every other handler name that is not in
`_SUPPORTED_SMIRNOFF_HANDLERS`. -/
def collectUnsupported (registered : List String) : List String :=
  registered.foldl
    (fun unsupported handler =>
      if handler ∈ ["ToolkitAM1BCC"] then unsupported
      else if handler ∈ supportedSmirnoffHandlers then unsupported
      else unsupported ++ [handler])
    []

/-- `_check_supported_handlers`: raises
`SMIRNOFFHandlersNotImplementedError` carrying the unsupported names when
the collected list is non-empty. -/
def checkSupportedHandlers (registered : List String) : Except (List String) Unit :=
  if collectUnsupported registered = [] then Except.ok ()
  else Except.error (collectUnsupported registered)

/-! ## `System.__add__` (system.py lines 368-422) -/

/-- Offsetting a topology key, lines 399-405:
`tuple(idx + atom_offset for idx in top_key.atom_indices)` with the
multiplicity carried over. -/
def shiftKey (off : ℕ) (k : TopologyKey) : TopologyKey :=
  ⟨k.atom_indices.map (fun idx => idx + off), k.mult⟩

/-- The inner loop over one right-operand handler (lines 398-407): each
slot-map entry is inserted under the offset key, and the referenced
potential is copied into the left potential store under its original
identity (`KeyError` if the right store lacks it). -/
def mergeSlots (off : ℕ) (otherPotentials : List (String × List ℚ))
    (entries : List (TopologyKey × String)) (selfH : PotentialHandler) :
    Except PyErr PotentialHandler :=
  match entries with
  | [] => Except.ok selfH
  | (top_key, pot_key) :: rest =>
    match dictLookup otherPotentials pot_key with
    | none => Except.error ⟨PyErrClass.keyError, pot_key⟩
    | some pot =>
      mergeSlots off otherPotentials rest
        { selfH with
          slot_map := dictUpdate selfH.slot_map (shiftKey off top_key) pot_key,
          potentials := dictUpdate selfH.potentials pot_key pot }

/-- The outer loop over the right operand handlers (lines 393-407): the
left handler of the same name is fetched (`KeyError` on a miss, line 394,
before the Electrostatics skip), Electrostatics is skipped, every other
handler is merged slot by slot. -/
def mergeHandlers (off : ℕ) (selfHandlers : List (String × PotentialHandler))
    (entries : List (String × PotentialHandler)) :
    Except PyErr (List (String × PotentialHandler)) :=
  match entries with
  | [] => Except.ok selfHandlers
  | (handler_name, handler) :: rest =>
    match dictLookup selfHandlers handler_name with
    | none => Except.error ⟨PyErrClass.keyError, handler_name⟩
    | some selfH =>
      if handler_name = "Electrostatics" then
        mergeHandlers off selfHandlers rest
      else
        match mergeSlots off handler.potentials handler.slot_map selfH with
        | Except.error e => Except.error e
        | Except.ok merged =>
          mergeHandlers off (dictUpdate selfHandlers handler_name merged) rest

/-- The Electrostatics charge merge (lines 409-412): for every right-hand
charge entry, a one-atom key `(atom_key.atom_indices[0] + atom_offset,)`
is built (`IndexError` on an empty tuple) and the charge is written into
the left Electrostatics handler, reached through
`self_copy["Electrostatics"]` — since `"Electrostatics"` is neither
`"positions"` nor `"box"`/`"box_vectors"`, that subscript is exactly the
handler-registry lookup, raising the enumerated `LookupError` on a miss. -/
def mergeCharges (off : ℕ) (handlers : List (String × PotentialHandler))
    (entries : List (TopologyKey × ℚ)) :
    Except PyErr (List (String × PotentialHandler)) :=
  match entries with
  | [] => Except.ok handlers
  | (atom_key, charge) :: rest =>
    match atom_key.atom_indices with
    | [] => Except.error ⟨PyErrClass.indexError, "tuple index out of range"⟩
    | first :: _ =>
      match dictLookup handlers "Electrostatics" with
      | none =>
        Except.error
          ⟨PyErrClass.lookupError,
            missingComponentMsgOf (handlers.map Prod.fst) "Electrostatics"⟩
      | some elec =>
        mergeCharges off
          (dictUpdate handlers "Electrostatics"
            { elec with
              charges := dictUpdate elec.charges ⟨[first + off], atom_key.mult⟩ charge })
          rest

/-- The body of `System.__add__` acting on the (shared) inner data:
`atom_offset` is the left operand atom count (line 382), the right
topology molecules are appended (modelled by the atom-count sum, lines
384-391), handlers are merged, charges are merged through
`other["Electrostatics"]` (a `LookupError` if the right operand lacks it),
positions are `np.vstack`-ed unconditionally (lines 414-415), and finally
unequal boxes raise `NotImplementedError` (lines 417-420). -/
def combineInner (self other : InnerData) : Except PyErr InnerData :=
  let atom_offset := self.nAtoms
  let newNAtoms := self.nAtoms + other.nAtoms
  match mergeHandlers atom_offset self.handlers other.handlers with
  | Except.error e => Except.error e
  | Except.ok hs1 =>
    match dictLookup other.handlers "Electrostatics" with
    | none =>
      Except.error ⟨PyErrClass.lookupError, missingComponentMsg other "Electrostatics"⟩
    | some otherElec =>
      match mergeCharges atom_offset hs1 otherElec.charges with
      | Except.error e => Except.error e
      | Except.ok hs2 =>
        match npVstack2 (npAtleast2d self.positions) (npAtleast2d other.positions) with
        | Except.error e => Except.error e
        | Except.ok new_positions =>
          if boxEqPy self.box other.box then
            Except.ok
              { handlers := hs2, nAtoms := newNAtoms, box := self.box,
                positions := some new_positions }
          else
            Except.error
              ⟨PyErrClass.notImplementedError,
                "Combination with unequal box vectors is not curretnly supported"⟩

/-- `System.__add__` at the object level.  `self_copy = System()` would
allocate a fresh inner-data record, but the very next line
`self_copy._inner_data = self._inner_data` rebinds the new object to the
left operand inner data, so every mutation performed by the combination
writes through the shared reference `self.inner`; the returned object is a
fresh `System` (object id `freshOid`) whose inner-data reference is the
left operand reference. -/
def sysAdd (heap : List (ℕ × InnerData)) (freshOid : ℕ) (self other : SystemObj) :
    Except PyErr (List (ℕ × InnerData) × SystemObj) :=
  match dictLookup heap self.inner, dictLookup heap other.inner with
  | some a, some b =>
    match combineInner a b with
    | Except.error e => Except.error e
    | Except.ok d => Except.ok (dictUpdate heap self.inner d, ⟨freshOid, self.inner⟩)
  | _, _ => Except.error ⟨PyErrClass.keyError, "dangling inner data reference"⟩

/-! ## `get_system_parameters` for a per-particle (vdW) collection -/

/-- The parameter row of one atom: resolve the slot map at the one-atom
key, then the potential store. -/
def rowFor (h : PotentialHandler) (i : ℕ) : Option (List ℚ) :=
  (dictLookup h.slot_map ⟨[i], none⟩).bind (fun pk => dictLookup h.potentials pk)

/-- Rows of atoms `0, …, k-1` in atom-index order; `none` when a slot or a
potential is missing. -/
def rowsUpTo (h : PotentialHandler) : ℕ → Option (List (List ℚ))
  | 0 => some []
  | k + 1 =>
    match rowsUpTo h k, rowFor h k with
    | some rows, some row => some (rows ++ [row])
    | _, _ => none

/-- Modelled from the spec: `get_system_parameters` of a per-particle
collection (its implementation lives in `components/potentials.py`, which
is not among the shown sources) "produces an ordered sequence of numeric
parameter rows matching a canonical per-particle ordering (atom index
order for per-particle collections)". -/
def get_system_parameters (h : PotentialHandler) (nAtoms : ℕ) :
    Option (List (List ℚ)) :=
  rowsUpTo h nAtoms

/-- The vdW per-particle parameter table of a container. -/
def vdwTable (s : InnerData) : Option (List (List ℚ)) :=
  (dictLookup s.handlers "vdW").bind (fun h => get_system_parameters h s.nAtoms)

/-! ## `_process_nonbonded_forces` (interop/openmm.py lines 79-111) -/

/-- The vdW handler fields read by the exporter. -/
structure VdwHandlerOMM : Type where
  method : String
  cutoff : ℚ
  deriving DecidableEq, Repr

/-- The Electrostatics handler field read by the exporter. -/
structure ElectrostaticsHandlerOMM : Type where
  method : String
  deriving DecidableEq, Repr

/-- The OpenMM nonbonded methods the exporter can select. -/
inductive OmmNonbondedMethod : Type
  | noCutoff
  | pme
  deriving DecidableEq, Repr

/-- The observable configuration calls made on the freshly constructed
`openmm.NonbondedForce`: each field is `none` when the corresponding
setter was never called, so the engine default silently stays. -/
structure OmmNonbondedForce : Type where
  nonbondedMethod : Option OmmNonbondedMethod
  dispersionCorrection : Option Bool
  cutoffDistance : Option ℚ
  deriving DecidableEq, Repr

/-- `_process_nonbonded_forces`: validation against
`supported_cutoff_methods = [["Cutoff", "PME"]]` raises
`UnsupportedCutoffMethodError` on a miss (lines 84-85, 90-91); afterwards
the force is configured only inside `if vdw_handler.method == "cutoff"`
(lines 96-102, note the lower case), with `NoCutoff` when the system has
no box and `PME` plus dispersion correction and the cutoff distance
otherwise.  The per-particle parameter loop (lines 104-111) does not touch
the nonbonded method and is omitted. -/
def process_nonbonded_forces (vdw : VdwHandlerOMM) (elec : ElectrostaticsHandlerOMM)
    (hasBox : Bool) : Except PyErr OmmNonbondedForce :=
  let supported_cutoff_methods := [("Cutoff", "PME")]
  if vdw.method ∈ supported_cutoff_methods.map Prod.fst then
    if elec.method ∈ supported_cutoff_methods.map Prod.snd then
      let force : OmmNonbondedForce := ⟨none, none, none⟩
      if vdw.method = "cutoff" then
        if hasBox = false then
          Except.ok { force with nonbondedMethod := some OmmNonbondedMethod.noCutoff }
        else
          Except.ok
            { nonbondedMethod := some OmmNonbondedMethod.pme,
              dispersionCorrection := some true,
              cutoffDistance := some vdw.cutoff }
      else Except.ok force
    else Except.error ⟨PyErrClass.unsupportedCutoffMethodError, ""⟩
  else Except.error ⟨PyErrClass.unsupportedCutoffMethodError, ""⟩

/-! ## `ElectrostaticsCollection` (common/_nonbonded.py) -/

/-- A key of the `_charges` table: a `TopologyKey` or a
`LibraryChargeTopologyKey` (the latter is defined in the models module,
which is not among the shown sources; it is modelled opaquely by the atom
index it addresses). -/
inductive ChargeSourceKey : Type
  | topKey (k : TopologyKey)
  | libraryKey (this_atom_index : ℕ)
  deriving DecidableEq, Repr

/-- `ElectrostaticsCollection` of `common/_nonbonded.py`: the scale
factors and cutoff of `_NonbondedCollection`, plus the private `_charges`
table and `_charges_cached` flag. -/
structure ElectrostaticsCollection : Type where
  scale_12 : ℚ
  scale_13 : ℚ
  scale_14 : ℚ
  scale_15 : ℚ
  cutoff : ℚ
  charges_store : List (ChargeSourceKey × ℚ)
  charges_cached : Bool
  deriving DecidableEq, Repr

/-- The `charges` property (lines 98-101): its body is exactly
`raise NotImplementedError()`, whatever the collection holds. -/
def ElectrostaticsCollection.charges (_c : ElectrostaticsCollection) :
    Except PyErr (List (ChargeSourceKey × ℚ)) :=
  Except.error ⟨PyErrClass.notImplementedError, ""⟩

/-! ## `_create_openmm_virtual_site` (interop/openmm/_virtual_sites.py) -/

/-- A virtual-site specification as the exporter dispatches on it:
`_BondChargeVirtualSite`, `_DivalentLonePairVirtualSite`, or any other
`_VirtualSite` subclass (which only the generic local-frame fallback
handles).  The particle classes live in `components/_particles.py`, not
among the shown sources; their fields are those the exporter reads:
`orientations`, `distance`, `out_of_plane_angle`, `local_frame_weights`
(origin/x/y weight vectors) and `local_frame_positions`. -/
inductive VirtualSiteModel : Type
  | bondCharge (orientations : List ℕ) (distance : ℚ)
  | divalentLonePair (orientations : List ℕ) (distance : ℚ)
      (out_of_plane_angle : ℚ) (originwt xdir ydir : List ℚ)
      (local_frame_positions : List ℚ)
  | otherSite (orientations : List ℕ) (originwt xdir ydir : List ℚ)
      (local_frame_positions : List ℚ)
  deriving DecidableEq, Repr

/-- The OpenMM virtual-site primitives the exporter can emit. -/
inductive OmmVirtualSite : Type
  | twoParticleAverage (p1 p2 : ℕ) (w1 w2 : ℚ)
  | threeParticleAverage (p1 p2 p3 : ℕ) (w1 w2 w3 : ℚ)
  | localCoordinates (particles : List ℕ) (originwt xdir ydir : List ℚ)
      (pos : List ℚ)
  deriving DecidableEq, Repr

/-- `_create_openmm_virtual_site`.  `separation` stands for
`_get_separation_by_atom_indices` (defined in `interop/_virtual_sites.py`,
not among the shown sources): the distance computed from the current
positions of the given atoms.  `cosHalfArccos` stands for the composition
`x ↦ cos(arccos(x) / 2)` of lines 76-86, kept abstract because the code
computes it with floating-point `numpy.arccos`/`numpy.cos`.
`particle_map` is `openff_openmm_particle_map` restricted to atoms. -/
def create_openmm_virtual_site (separation : List ℕ → ℚ)
    (cosHalfArccos : ℚ → ℚ) (particle_map : ℕ → ℕ) (vs : VirtualSiteModel) :
    Except PyErr OmmVirtualSite :=
  match vs with
  | VirtualSiteModel.bondCharge orientations distance =>
    let openmm_indices := orientations.map particle_map
    let sep := separation orientations
    let ratio := distance / sep
    match openmm_indices with
    | [p1, p2] =>
      Except.ok (OmmVirtualSite.twoParticleAverage p1 p2 (1 + ratio) (0 - ratio))
    | _ => Except.error ⟨PyErrClass.typeError, "TwoParticleAverageSite takes two particles"⟩
  | VirtualSiteModel.divalentLonePair orientations distance out_of_plane_angle
      originwt xdir ydir pos =>
    match orientations with
    | o1 :: _o2 :: o3 :: _ =>
      let openmm_indices := orientations.map particle_map
      let r12 := separation (orientations.take 2)
      let r13 := separation [o1, o3]
      if r12 = r13 ∧ out_of_plane_angle = 0 then
        let r23 := separation (orientations.drop 1)
        let q := (r23 ^ 2 - r12 ^ 2 - r13 ^ 2) / (-2 * r12 * r13)
        let r1mid := cosHalfArccos q * r12
        let w1 := 1 + distance / r1mid
        match openmm_indices with
        | [p1, p2, p3] =>
          Except.ok
            (OmmVirtualSite.threeParticleAverage p1 p2 p3 w1 ((1 - w1) / 2) ((1 - w1) / 2))
        | _ =>
          Except.error ⟨PyErrClass.typeError, "ThreeParticleAverageSite takes three particles"⟩
      else
        Except.ok (OmmVirtualSite.localCoordinates openmm_indices originwt xdir ydir pos)
    | _ => Except.error ⟨PyErrClass.indexError, "orientations index out of range"⟩
  | VirtualSiteModel.otherSite orientations originwt xdir ydir pos =>
    Except.ok
      (OmmVirtualSite.localCoordinates (orientations.map particle_map) originwt xdir ydir pos)

/-! ## Helper observers and concrete instances used by the theorems -/

deriving instance DecidableEq for Except

/-- The exception class of a computation, `none` when it succeeded. -/
def errClassOf {α : Type} (r : Except PyErr α) : Option PyErrClass :=
  match r with
  | Except.error e => some e.cls
  | Except.ok _ => none

/-- The first weight of the symmetric three-particle divalent lone-pair
site, as computed on lines 71-88: `w1 = 1 + distance / r1mid` with
`r1mid = cos(arccos(q) / 2) * r12` and
`q = (r23² - r12² - r13²) / (-2 r12 r13)`. -/
def divalentW1 (separation : List ℕ → ℚ) (cosHalfArccos : ℚ → ℚ)
    (o1 o2 o3 : ℕ) (distance : ℚ) : ℚ :=
  1 + distance /
    (cosHalfArccos
        ((separation [o2, o3] ^ 2 - separation [o1, o2] ^ 2 - separation [o1, o3] ^ 2) /
          (-2 * separation [o1, o2] * separation [o1, o3])) *
      separation [o1, o2])

/-- A handler with nothing in it. -/
def emptyHandler : PotentialHandler := ⟨[], [], []⟩

/-- A container with one registered handler, for exercising `__getitem__`. -/
def c6_sys : InnerData := ⟨[("Bonds", emptyHandler)], 0, none, none⟩

/-- An `ElectrostaticsCollection` with a registered charge contribution. -/
def c5_example : ElectrostaticsCollection :=
  ⟨0, 0, 1/2, 1, 9, [(ChargeSourceKey.libraryKey 0, 1/2)], false⟩

/-- A one-atom container without positions. -/
def c1_unpositioned : InnerData := ⟨[("Electrostatics", emptyHandler)], 1, none, none⟩

/-- A one-atom container with positions. -/
def c1_positioned : InnerData :=
  ⟨[("Electrostatics", emptyHandler)], 1, none,
    some [[NpCell.rat 0, NpCell.rat 0, NpCell.rat 0]]⟩

/-- Left operand inner data for the combination frame-effect analysis. -/
def c2_left_inner : InnerData :=
  ⟨[("vdW", ⟨[(⟨[0], none⟩, "L")], [("L", [1])], []⟩),
    ("Electrostatics", ⟨[], [], [(⟨[0], none⟩, 1)]⟩)], 1, none, none⟩

/-- Right operand inner data for the combination frame-effect analysis. -/
def c2_right_inner : InnerData :=
  ⟨[("vdW", ⟨[(⟨[0], none⟩, "R")], [("R", [2])], []⟩),
    ("Electrostatics", ⟨[], [], [(⟨[0], none⟩, -1)]⟩)], 1, none, none⟩

/-- The inner data `System.__add__` leaves behind for those operands. -/
def c2_combined : InnerData :=
  ⟨[("vdW",
      ⟨[(⟨[0], none⟩, "L"), (⟨[1], none⟩, "R")], [("L", [1]), ("R", [2])], []⟩),
    ("Electrostatics",
      ⟨[], [], [(⟨[0], none⟩, 1), (⟨[1], none⟩, -1)]⟩)],
    2, none, some [[NpCell.pyNone], [NpCell.pyNone]]⟩

/-- A heap holding the two operand inner-data records. -/
def c2_heap : List (ℕ × InnerData) := [(0, c2_left_inner), (1, c2_right_inner)]

/-- Running `__add__` on the two operands (object ids 10 and 11, fresh
object id 12 for the result). -/
def c2_result : Except PyErr (List (ℕ × InnerData) × SystemObj) :=
  sysAdd c2_heap 12 ⟨10, 0⟩ ⟨11, 1⟩

/-- Left vdW handler for the combination-table analysis. -/
def c3w_av : PotentialHandler := ⟨[(⟨[0], none⟩, "a0")], [("a0", [1, 2])], []⟩

/-- Left Electrostatics handler for the combination-table analysis. -/
def c3w_ae : PotentialHandler := ⟨[], [], [(⟨[0], none⟩, 1)]⟩

/-- Right vdW handler for the combination-table analysis. -/
def c3w_bv : PotentialHandler := ⟨[(⟨[0], none⟩, "b0")], [("b0", [3, 4])], []⟩

/-- Right Electrostatics handler for the combination-table analysis. -/
def c3w_be : PotentialHandler := ⟨[], [], [(⟨[0], none⟩, -1)]⟩

/-- Left operand for the combination-table analysis. -/
def c3w_a : InnerData := ⟨[("vdW", c3w_av), ("Electrostatics", c3w_ae)], 1, none, none⟩

/-- Right operand for the combination-table analysis. -/
def c3w_b : InnerData := ⟨[("vdW", c3w_bv), ("Electrostatics", c3w_be)], 1, none, none⟩

/-- The merged vdW handler those operands produce. -/
def c3w_mv : PotentialHandler :=
  ⟨[(⟨[0], none⟩, "a0"), (⟨[1], none⟩, "b0")],
    [("a0", [1, 2]), ("b0", [3, 4])], []⟩

/-- The merged handler registry those operands produce. -/
def c3w_hs2 : List (String × PotentialHandler) :=
  [("vdW", c3w_mv),
   ("Electrostatics", ⟨[], [], [(⟨[0], none⟩, 1), (⟨[1], none⟩, -1)]⟩)]

/-- Left operand whose vdW potential identity `"P"` collides with the
right operand under a different parameter value. -/
def c3c_a : InnerData :=
  ⟨[("vdW", ⟨[(⟨[0], none⟩, "P")], [("P", [1])], []⟩),
    ("Electrostatics", emptyHandler)], 1, none, none⟩

/-- Right operand of the potential-identity collision. -/
def c3c_b : InnerData :=
  ⟨[("vdW", ⟨[(⟨[0], none⟩, "P")], [("P", [2])], []⟩),
    ("Electrostatics", emptyHandler)], 1, none, none⟩

/-- The separation oracle used to witness both divalent lone-pair cases:
bonds measure 1 except the pair `[10, 12]`, which measures 2. -/
def c9_sep : List ℕ → ℚ := fun l => if l = [10, 12] then 2 else 1

/-! ## Theorems -/

theorem dictLookup_update_self {α β : Type} [DecidableEq α]
    (d : List (α × β)) (k : α) (v : β) :
    dictLookup (dictUpdate d k v) k = some v := by
  induction d with
  | nil => simp [dictUpdate, dictLookup]
  | cons p rest ih =>
    obtain ⟨k', v'⟩ := p
    by_cases h : k' = k
    · simp [dictUpdate, dictLookup, h]
    · simp [dictUpdate, dictLookup, h, ih]

theorem dictLookup_update_ne {α β : Type} [DecidableEq α]
    (d : List (α × β)) (k k' : α) (v : β) (h : k' ≠ k) :
    dictLookup (dictUpdate d k v) k' = dictLookup d k' := by
  induction d with
  | nil => simp [dictUpdate, dictLookup, Ne.symm h]
  | cons p rest ih =>
    obtain ⟨k₀, v₀⟩ := p
    by_cases h₀ : k₀ = k
    · subst h₀
      simp [dictUpdate, dictLookup, Ne.symm h]
    · simp [dictUpdate, dictLookup, h₀, ih]

/-- C7: setting the box to a 3-vector `[a, b, c]` stores exactly the same
box state as setting it to the diagonal 3×3 matrix `diag(a, b, c)`,
setting it to `None` stores `None`, and any array whose shape is neither
`(3,)` nor `(3, 3)` raises the invalid-box validation error. -/
theorem box_vector_diag_equivalence (a b c : ℚ) (arr : NDArray)
    (h1 : npShape arr ≠ [3, 3]) (h2 : npShape arr ≠ [3]) :
    validate_box (some (NDArray.a1 [a, b, c]))
        = Except.ok (some (NDArray.a2 [[a, 0, 0], [0, b, 0], [0, 0, c]]))
      ∧ validate_box (some (NDArray.a2 [[a, 0, 0], [0, b, 0], [0, 0, c]]))
        = Except.ok (some (NDArray.a2 [[a, 0, 0], [0, b, 0], [0, 0, c]]))
      ∧ validate_box none = Except.ok none
      ∧ validate_box (some arr) = Except.error ⟨PyErrClass.invalidBoxError, ""⟩ := by
  refine ⟨?_, ?_, rfl, ?_⟩
  · simp [validate_box, npShape, npColsQ, npMulEye3, broadcastVecMat, npEye3]
  · simp [validate_box, npShape, npColsQ]
  · simp [validate_box, h1, h2]

/-- Witness for C7 at `a = 1`, `b = 2`, `c = 3` and a shape-`(4,)` array. -/
theorem box_vector_diag_equivalence_witness :
    validate_box (some (NDArray.a1 [1, 2, 3]))
        = Except.ok (some (NDArray.a2 [[1, 0, 0], [0, 2, 0], [0, 0, 3]]))
      ∧ validate_box (some (NDArray.a2 [[1, 0, 0], [0, 2, 0], [0, 0, 3]]))
        = Except.ok (some (NDArray.a2 [[1, 0, 0], [0, 2, 0], [0, 0, 3]]))
      ∧ validate_box none = Except.ok none
      ∧ validate_box (some (NDArray.a1 [1, 2, 3, 4]))
        = Except.error ⟨PyErrClass.invalidBoxError, ""⟩ :=
  box_vector_diag_equivalence 1 2 3 (NDArray.a1 [1, 2, 3, 4]) (by decide) (by decide)

/-- C8: for a bond-charge virtual site over two orientation atoms a
positive distance apart, the exporter emits a two-particle average site
with weights `w1 = 1 + distance/separation` and
`w2 = -(distance/separation)`, and `w1 + w2 = 1`. -/
theorem bond_charge_two_particle_weights (separation : List ℕ → ℚ)
    (cosHalfArccos : ℚ → ℚ) (particle_map : ℕ → ℕ) (o1 o2 : ℕ) (distance : ℚ)
    (hsep : 0 < separation [o1, o2]) :
    create_openmm_virtual_site separation cosHalfArccos particle_map
        (VirtualSiteModel.bondCharge [o1, o2] distance)
      = Except.ok
          (OmmVirtualSite.twoParticleAverage (particle_map o1) (particle_map o2)
            (1 + distance / separation [o1, o2]) (0 - distance / separation [o1, o2]))
      ∧ (1 + distance / separation [o1, o2]) + (0 - distance / separation [o1, o2]) = 1 := by
  constructor
  · simp [create_openmm_virtual_site]
  · ring

/-- Witness for C8: two atoms separated by 2 with site distance 1. -/
theorem bond_charge_two_particle_weights_witness :
    create_openmm_virtual_site (fun _ => 2) (fun _ => 1) (fun i => i)
        (VirtualSiteModel.bondCharge [0, 1] 1)
      = Except.ok (OmmVirtualSite.twoParticleAverage 0 1 (1 + 1 / 2) (0 - 1 / 2))
      ∧ (1 + (1 : ℚ) / 2) + (0 - (1 : ℚ) / 2) = 1 :=
  bond_charge_two_particle_weights (fun _ => 2) (fun _ => 1) (fun i => i) 0 1 1
    (by norm_num)

/-- C9: a divalent lone-pair virtual site is exported as the symmetric
three-particle average site (weights `w1, (1-w1)/2, (1-w1)/2`, summing to
one) exactly when the two defining bond lengths are equal and the
out-of-plane angle is zero; any other divalent geometry falls through to
the generic local-coordinate-frame site built from the local frame
weights and positions. -/
theorem divalent_lone_pair_dispatch
    (separation : List ℕ → ℚ) (cosHalfArccos : ℚ → ℚ) (particle_map : ℕ → ℕ)
    (a1 a2 a3 : ℕ) (dA : ℚ) (owA xdA ydA posA : List ℚ)
    (b1 b2 b3 : ℕ) (dB angleB : ℚ) (owB xdB ydB posB : List ℚ)
    (hA : separation [a1, a2] = separation [a1, a3])
    (hB : ¬(separation [b1, b2] = separation [b1, b3] ∧ angleB = 0)) :
    create_openmm_virtual_site separation cosHalfArccos particle_map
        (VirtualSiteModel.divalentLonePair [a1, a2, a3] dA 0 owA xdA ydA posA)
      = Except.ok
          (OmmVirtualSite.threeParticleAverage (particle_map a1) (particle_map a2)
            (particle_map a3) (divalentW1 separation cosHalfArccos a1 a2 a3 dA)
            ((1 - divalentW1 separation cosHalfArccos a1 a2 a3 dA) / 2)
            ((1 - divalentW1 separation cosHalfArccos a1 a2 a3 dA) / 2))
      ∧ create_openmm_virtual_site separation cosHalfArccos particle_map
          (VirtualSiteModel.divalentLonePair [b1, b2, b3] dB angleB owB xdB ydB posB)
        = Except.ok
            (OmmVirtualSite.localCoordinates
              [particle_map b1, particle_map b2, particle_map b3] owB xdB ydB posB)
      ∧ divalentW1 separation cosHalfArccos a1 a2 a3 dA
          + (1 - divalentW1 separation cosHalfArccos a1 a2 a3 dA) / 2
          + (1 - divalentW1 separation cosHalfArccos a1 a2 a3 dA) / 2 = 1 := by
  refine ⟨?_, ?_, by ring⟩
  · simp [create_openmm_virtual_site, divalentW1, hA]
  · simp only [create_openmm_virtual_site]
    rw [if_neg]
    · rfl
    · simpa using hB

/-- Witness for C9: a symmetric site over atoms 0,1,2 and an asymmetric
one over atoms 10,11,12 (bond lengths 1 versus 2). -/
theorem divalent_lone_pair_dispatch_witness :
    create_openmm_virtual_site c9_sep (fun _ => 1) (fun i => i)
        (VirtualSiteModel.divalentLonePair [0, 1, 2] 1 0 [] [] [] [])
      = Except.ok
          (OmmVirtualSite.threeParticleAverage 0 1 2
            (divalentW1 c9_sep (fun _ => 1) 0 1 2 1)
            ((1 - divalentW1 c9_sep (fun _ => 1) 0 1 2 1) / 2)
            ((1 - divalentW1 c9_sep (fun _ => 1) 0 1 2 1) / 2))
      ∧ create_openmm_virtual_site c9_sep (fun _ => 1) (fun i => i)
          (VirtualSiteModel.divalentLonePair [10, 11, 12] 1 0 [] [] [] [])
        = Except.ok (OmmVirtualSite.localCoordinates [10, 11, 12] [] [] [] [])
      ∧ divalentW1 c9_sep (fun _ => 1) 0 1 2 1
          + (1 - divalentW1 c9_sep (fun _ => 1) 0 1 2 1) / 2
          + (1 - divalentW1 c9_sep (fun _ => 1) 0 1 2 1) / 2 = 1 :=
  divalent_lone_pair_dispatch c9_sep (fun _ => 1) (fun i => i) 0 1 2 1 [] [] [] []
    10 11 12 1 0 [] [] [] [] (by decide) (by decide)

theorem collectUnsupported_append (registered acc : List String) :
    registered.foldl
        (fun unsupported handler =>
          if handler ∈ ["ToolkitAM1BCC"] then unsupported
          else if handler ∈ supportedSmirnoffHandlers then unsupported
          else unsupported ++ [handler]) acc
      = acc ++ registered.filter
          (fun handler =>
            decide (handler ∉ ["ToolkitAM1BCC"] ∧ handler ∉ supportedSmirnoffHandlers)) := by
  induction registered generalizing acc with
  | nil => simp
  | cons h t ih =>
    rw [List.foldl_cons, ih, List.filter_cons]
    by_cases h1 : h = "ToolkitAM1BCC"
    · simp [h1]
    · by_cases h2 : h ∈ supportedSmirnoffHandlers
      · simp [h1, h2]
      · simp [h1, h2, List.append_assoc]

theorem mem_collectUnsupported (x : String) (registered : List String) :
    x ∈ collectUnsupported registered
      ↔ x ∈ registered ∧ x ∉ ["ToolkitAM1BCC"] ∧ x ∉ supportedSmirnoffHandlers := by
  unfold collectUnsupported
  rw [collectUnsupported_append]
  simp [List.mem_filter]

/-- C10: `"ToolkitAM1BCC"` is not in the supported-handler set, yet it is
silently exempt from the supported-handler check, while every other
registered handler name outside the supported set is reported in the
handlers-not-implemented error (which is raised, carrying the collected
names). -/
theorem toolkit_am1bcc_exempt (registered : List String) (badHandler : String)
    (hmem : badHandler ∈ registered)
    (hnotsup : badHandler ∉ supportedSmirnoffHandlers)
    (hnottk : badHandler ≠ "ToolkitAM1BCC") :
    "ToolkitAM1BCC" ∉ supportedSmirnoffHandlers
      ∧ "ToolkitAM1BCC" ∉ collectUnsupported registered
      ∧ badHandler ∈ collectUnsupported registered
      ∧ checkSupportedHandlers registered = Except.error (collectUnsupported registered) := by
  have h2 : "ToolkitAM1BCC" ∉ collectUnsupported registered := by
    rw [mem_collectUnsupported]
    simp
  have h3 : badHandler ∈ collectUnsupported registered :=
    (mem_collectUnsupported _ _).mpr ⟨hmem, by simp [hnottk], hnotsup⟩
  refine ⟨by decide, h2, h3, ?_⟩
  unfold checkSupportedHandlers
  rw [if_neg (List.ne_nil_of_mem h3)]

/-- Witness for C10: a force field registering `ToolkitAM1BCC` and the
unsupported handler `bogus`. -/
theorem toolkit_am1bcc_exempt_witness :
    "ToolkitAM1BCC" ∉ supportedSmirnoffHandlers
      ∧ "ToolkitAM1BCC" ∉ collectUnsupported ["ToolkitAM1BCC", "bogus"]
      ∧ "bogus" ∈ collectUnsupported ["ToolkitAM1BCC", "bogus"]
      ∧ checkSupportedHandlers ["ToolkitAM1BCC", "bogus"]
          = Except.error (collectUnsupported ["ToolkitAM1BCC", "bogus"]) :=
  toolkit_am1bcc_exempt ["ToolkitAM1BCC", "bogus"] "bogus" (by decide) (by decide)
    (by decide)

/-- C5 (amended): reading the `charges` property of the
`ElectrostaticsCollection` of `common/_nonbonded.py` fails with
`NotImplementedError` unconditionally — whether or not any charge
contribution source is registered. -/
theorem electrostatics_charges_always_raises (c : ElectrostaticsCollection) :
    c.charges = Except.error ⟨PyErrClass.notImplementedError, ""⟩ := rfl

/-- C5 counterexample: a collection with a registered charge contribution
on which reading `charges` still raises, contradicting the claim that the
read succeeds once a contribution source is registered. -/
theorem electrostatics_charges_registered_source_still_raises :
    c5_example.charges_store ≠ []
      ∧ c5_example.charges = Except.error ⟨PyErrClass.notImplementedError, ""⟩ :=
  ⟨by decide, rfl⟩

/-- C6 (amended): a non-string key raises a `LookupError` with the
only-str message (the same exception class as the missing-handler error,
distinguishable only by message); an unregistered string that is not
`positions`/`box`/`box_vectors` raises the `LookupError` whose message
enumerates the registered handler names; a registered handler name
returns that handler. -/
theorem getitem_lookup_behaviour (s : InnerData) (strMiss strHit : String) (n : ℤ)
    (h : PotentialHandler)
    (h1 : strMiss ≠ "positions") (h2 : strMiss ≠ "box") (h3 : strMiss ≠ "box_vectors")
    (h4 : dictLookup s.handlers strMiss = none)
    (h5 : strHit ≠ "positions") (h6 : strHit ≠ "box") (h7 : strHit ≠ "box_vectors")
    (h8 : dictLookup s.handlers strHit = some h) :
    sysGetItem s (PyVal.pyInt n) = Except.error ⟨PyErrClass.lookupError, onlyStrLookupMsg⟩
      ∧ sysGetItem s (PyVal.pyStr strMiss)
        = Except.error ⟨PyErrClass.lookupError, missingComponentMsg s strMiss⟩
      ∧ sysGetItem s (PyVal.pyStr strHit) = Except.ok (SysComponent.handlerC h) := by
  refine ⟨rfl, ?_, ?_⟩
  · simp [sysGetItem, h1, h2, h3, h4]
  · simp [sysGetItem, h5, h6, h7, h8]

/-- Witness for C6: a container registering only `Bonds`, probed with the
integer 1, the unknown name `CMAPs`, and the registered name `Bonds`. -/
theorem getitem_lookup_behaviour_witness :
    sysGetItem c6_sys (PyVal.pyInt 1)
        = Except.error ⟨PyErrClass.lookupError, onlyStrLookupMsg⟩
      ∧ sysGetItem c6_sys (PyVal.pyStr "CMAPs")
        = Except.error ⟨PyErrClass.lookupError, missingComponentMsg c6_sys "CMAPs"⟩
      ∧ sysGetItem c6_sys (PyVal.pyStr "Bonds")
        = Except.ok (SysComponent.handlerC emptyHandler) :=
  getitem_lookup_behaviour c6_sys "CMAPs" "Bonds" 1 emptyHandler (by decide) (by decide)
    (by decide) (by decide) (by decide) (by decide) (by decide) (by decide)

/-- C6 counterexample: the non-string-key error and the missing-handler
error have the same exception class (`LookupError`), contradicting the
claim that the non-string failure is of a kind distinct from the
missing-handler error. -/
theorem getitem_same_error_class :
    errClassOf (sysGetItem c6_sys (PyVal.pyInt 1))
        = errClassOf (sysGetItem c6_sys (PyVal.pyStr "CMAPs"))
      ∧ errClassOf (sysGetItem c6_sys (PyVal.pyInt 1)) = some PyErrClass.lookupError := by
  decide

/-- C4: whenever `_process_nonbonded_forces` returns without raising, the
nonbonded method of the emitted force was never configured — the engine
default is silently left in place, because validation admits only the
capitalised `"Cutoff"` while the configuration branch tests for the
lower-case `"cutoff"`. -/
theorem process_nonbonded_never_sets_method (vdw : VdwHandlerOMM)
    (elec : ElectrostaticsHandlerOMM) (hasBox : Bool) (force : OmmNonbondedForce)
    (hok : process_nonbonded_forces vdw elec hasBox = Except.ok force) :
    force.nonbondedMethod = none := by
  unfold process_nonbonded_forces at hok
  simp only [List.map] at hok
  split_ifs at hok with h1 h2 h3 h4
  · exfalso
    rw [List.mem_singleton] at h1
    rw [h1] at h3
    exact absurd h3 (by decide)
  · exfalso
    rw [List.mem_singleton] at h1
    rw [h1] at h3
    exact absurd h3 (by decide)
  · cases hok
    rfl

/-- Witness for C4: a periodic container whose methods pass validation
(`Cutoff`/`PME`) still gets a force with no nonbonded method set. -/
theorem process_nonbonded_never_sets_method_witness :
    process_nonbonded_forces ⟨"Cutoff", 9⟩ ⟨"PME"⟩ true
        = Except.ok ⟨none, none, none⟩
      ∧ (⟨none, none, none⟩ : OmmNonbondedForce).nonbondedMethod = none := by
  have hok : process_nonbonded_forces ⟨"Cutoff", 9⟩ ⟨"PME"⟩ true
      = Except.ok ⟨none, none, none⟩ := by decide
  exact ⟨hok, process_nonbonded_never_sets_method _ _ _ _ hok⟩

/-- C1 (code evaluation): combining two unpositioned containers yields a
2×1 object array of `None` as the positions (not `None` itself); a
positioned with an unpositioned operand raises a `ValueError` from
`np.vstack`; two positioned operands do concatenate row-wise. -/
theorem combine_positions_vstack_behaviour :
    (combineInner c1_unpositioned c1_unpositioned).map InnerData.positions
        = Except.ok (some [[NpCell.pyNone], [NpCell.pyNone]])
      ∧ (combineInner c1_positioned c1_unpositioned).map InnerData.positions
        = Except.error ⟨PyErrClass.valueError, "all the input array dimensions must match"⟩
      ∧ (combineInner c1_positioned c1_positioned).map InnerData.positions
        = Except.ok
            (some [[NpCell.rat 0, NpCell.rat 0, NpCell.rat 0],
                   [NpCell.rat 0, NpCell.rat 0, NpCell.rat 0]]) := by
  refine ⟨?_, ?_, ?_⟩ <;> decide

/-- C2 counterexample: on concrete operands, `__add__` succeeds and
returns a fresh `System` object (object id 12) whose inner data is the
left operand inner data (reference 0); the left operand inner data is
mutated away from its previous value while the right operand record is
unchanged — contradicting the claim that both operands are structurally
unchanged by combination. -/
theorem sys_add_mutates_left_operand :
    c2_result.map Prod.snd = Except.ok ⟨12, 0⟩
      ∧ c2_result.map (fun p => decide (dictLookup p.1 0 = some c2_left_inner))
        = Except.ok false
      ∧ c2_result.map (fun p => decide (dictLookup p.1 1 = some c2_right_inner))
        = Except.ok true := by
  refine ⟨?_, ?_, ?_⟩ <;> decide

/-- C2 (amended): when combination succeeds, `a + b` returns a fresh
`System` object, but that object aliases the left operand inner data: the
heap cell of the left operand is overwritten with the combined data (so
the left operand is mutated in place), while the right operand inner data
is left unchanged. -/
theorem sys_add_shares_left_inner (heap : List (ℕ × InnerData)) (freshOid : ℕ)
    (self other : SystemObj) (a b d : InnerData)
    (ha : dictLookup heap self.inner = some a)
    (hb : dictLookup heap other.inner = some b)
    (hd : combineInner a b = Except.ok d)
    (hne : other.inner ≠ self.inner) :
    sysAdd heap freshOid self other
        = Except.ok (dictUpdate heap self.inner d, ⟨freshOid, self.inner⟩)
      ∧ dictLookup (dictUpdate heap self.inner d) self.inner = some d
      ∧ dictLookup (dictUpdate heap self.inner d) other.inner
        = dictLookup heap other.inner := by
  refine ⟨?_, dictLookup_update_self _ _ _, dictLookup_update_ne _ _ _ _ hne⟩
  unfold sysAdd
  rw [ha, hb]
  dsimp only
  rw [hd]

/-- Witness for C2: the concrete two-operand heap, with the combined
inner data written back into the left operand cell. -/
theorem sys_add_shares_left_inner_witness :
    sysAdd c2_heap 12 ⟨10, 0⟩ ⟨11, 1⟩
        = Except.ok (dictUpdate c2_heap 0 c2_combined, ⟨12, 0⟩)
      ∧ dictLookup (dictUpdate c2_heap 0 c2_combined) 0 = some c2_combined
      ∧ dictLookup (dictUpdate c2_heap 0 c2_combined) 1 = dictLookup c2_heap 1 :=
  sys_add_shares_left_inner c2_heap 12 ⟨10, 0⟩ ⟨11, 1⟩ c2_left_inner c2_right_inner
    c2_combined (by decide) (by decide) (by decide) (by decide)

theorem dictLookup_mem {α β : Type} [DecidableEq α] :
    ∀ (d : List (α × β)) (k : α) (v : β), dictLookup d k = some v → (k, v) ∈ d := by
  intro d
  induction d with
  | nil => intro k v h; simp [dictLookup] at h
  | cons p rest ih =>
    intro k v h
    obtain ⟨k0, v0⟩ := p
    by_cases hk : k0 = k
    · subst hk
      simp [dictLookup] at h
      subst h
      exact List.mem_cons_self _ _
    · simp [dictLookup, hk] at h
      exact List.mem_cons_of_mem _ (ih k v h)

theorem shiftKey_inj (off : ℕ) (k1 k2 : TopologyKey)
    (h : shiftKey off k1 = shiftKey off k2) : k1 = k2 := by
  obtain ⟨ai1, m1⟩ := k1
  obtain ⟨ai2, m2⟩ := k2
  simp only [shiftKey, TopologyKey.mk.injEq] at h
  obtain ⟨hmap, hm⟩ := h
  have hinj : Function.Injective (fun idx : ℕ => idx + off) := add_left_injective off
  have : ai1 = ai2 := List.map_injective_iff.mpr hinj hmap
  simp [this, hm]

theorem rowsUpTo_length_get (h : PotentialHandler) :
    ∀ (k : ℕ) (l : List (List ℚ)), rowsUpTo h k = some l →
      l.length = k ∧ ∀ j, j < k → rowFor h j = l.get? j := by
  intro k
  induction k with
  | zero =>
    intro l hl
    simp [rowsUpTo] at hl
    subst hl
    simp
  | succ k ih =>
    intro l hl
    simp only [rowsUpTo] at hl
    cases hk : rowsUpTo h k with
    | none => rw [hk] at hl; simp at hl
    | some rows =>
      cases hr : rowFor h k with
      | none => rw [hk, hr] at hl; simp at hl
      | some row =>
        rw [hk, hr] at hl
        simp only [Option.some.injEq] at hl
        obtain ⟨hlen, hget⟩ := ih rows hk
        constructor
        · rw [← hl]
          simp [hlen]
        · intro j hj
          rcases Nat.lt_succ_iff_lt_or_eq.mp hj with hj' | hj'
          · rw [← hl, List.get?_append (by omega)]
            exact hget j hj'
          · subst hj'
            rw [← hl, ← hlen, List.get?_concat_length, hlen]
            exact hr

theorem rowsUpTo_congr (h1 h2 : PotentialHandler) :
    ∀ (k : ℕ), (∀ j, j < k → rowFor h1 j = rowFor h2 j) →
      rowsUpTo h1 k = rowsUpTo h2 k := by
  intro k
  induction k with
  | zero => intro _; rfl
  | succ k ih =>
    intro hj
    simp only [rowsUpTo]
    rw [ih (fun j hjk => hj j (Nat.lt_succ_of_lt hjk)), hj k (Nat.lt_succ_self k)]

theorem rowsUpTo_extend (h : PotentialHandler) (n : ℕ) (ta tb : List (List ℚ))
    (hn : rowsUpTo h n = some ta)
    (hrows : ∀ j, j < tb.length → rowFor h (n + j) = tb.get? j) :
    ∀ k, k ≤ tb.length → rowsUpTo h (n + k) = some (ta ++ tb.take k) := by
  intro k
  induction k with
  | zero => intro _; simpa using hn
  | succ k ih =>
    intro hk
    have hk' : k ≤ tb.length := Nat.le_of_succ_le hk
    have hklt : k < tb.length := hk
    rw [Nat.add_succ]
    simp only [rowsUpTo]
    rw [ih hk', hrows k hklt]
    cases hg : tb.get? k with
    | none =>
      exact absurd (List.get?_eq_none.mp hg) (Nat.not_le_of_lt hklt)
    | some row =>
      have hg2 : tb[k]? = some row := by rw [← List.get?_eq_getElem?]; exact hg
      simp only [List.take_succ, hg2, Option.toList_some]
      simp [List.append_assoc]

theorem mergeSlots_slot_preserved (off : ℕ) (pots : List (String × List ℚ)) :
    ∀ (entries : List (TopologyKey × String)) (selfH res : PotentialHandler),
      mergeSlots off pots entries selfH = Except.ok res →
      ∀ key : TopologyKey,
        (∀ tk pk, (tk, pk) ∈ entries → shiftKey off tk ≠ key) →
        dictLookup res.slot_map key = dictLookup selfH.slot_map key := by
  intro entries
  induction entries with
  | nil =>
    intro selfH res h key _
    simp only [mergeSlots, Except.ok.injEq] at h
    rw [h]
  | cons e rest ih =>
    intro selfH res h key hkey
    obtain ⟨tk, pk⟩ := e
    simp only [mergeSlots] at h
    cases hp : dictLookup pots pk with
    | none => rw [hp] at h; simp at h
    | some pot =>
      rw [hp] at h
      rw [ih _ _ h key (fun tk' pk' hmem => hkey tk' pk' (List.mem_cons_of_mem _ hmem))]
      exact dictLookup_update_ne _ _ _ _ (hkey tk pk (List.mem_cons_self _ _)).symm

theorem mergeSlots_pot_preserved (off : ℕ) (pots : List (String × List ℚ)) :
    ∀ (entries : List (TopologyKey × String)) (selfH res : PotentialHandler),
      mergeSlots off pots entries selfH = Except.ok res →
      ∀ pkey : String,
        (∀ tk pk, (tk, pk) ∈ entries → pk ≠ pkey) →
        dictLookup res.potentials pkey = dictLookup selfH.potentials pkey := by
  intro entries
  induction entries with
  | nil =>
    intro selfH res h pkey _
    simp only [mergeSlots, Except.ok.injEq] at h
    rw [h]
  | cons e rest ih =>
    intro selfH res h pkey hkey
    obtain ⟨tk, pk⟩ := e
    simp only [mergeSlots] at h
    cases hp : dictLookup pots pk with
    | none => rw [hp] at h; simp at h
    | some pot =>
      rw [hp] at h
      rw [ih _ _ h pkey (fun tk' pk' hmem => hkey tk' pk' (List.mem_cons_of_mem _ hmem))]
      exact dictLookup_update_ne _ _ _ _ (hkey tk pk (List.mem_cons_self _ _)).symm

theorem mergeSlots_slot_new (off : ℕ) (pots : List (String × List ℚ)) :
    ∀ (entries : List (TopologyKey × String)) (selfH res : PotentialHandler),
      mergeSlots off pots entries selfH = Except.ok res →
      (entries.map Prod.fst).Nodup →
      ∀ tk pk, (tk, pk) ∈ entries →
        dictLookup res.slot_map (shiftKey off tk) = some pk := by
  intro entries
  induction entries with
  | nil => intro selfH res _ _ tk pk hmem; simp at hmem
  | cons e rest ih =>
    intro selfH res h hnodup tk pk hmem
    obtain ⟨tk0, pk0⟩ := e
    simp only [mergeSlots] at h
    cases hp : dictLookup pots pk0 with
    | none => rw [hp] at h; simp at h
    | some pot =>
      rw [hp] at h
      rcases List.mem_cons.mp hmem with heq | hmem'
      · obtain ⟨htk, hpk⟩ := Prod.ext_iff.mp heq
        subst htk
        subst hpk
        rw [mergeSlots_slot_preserved off pots rest _ res h (shiftKey off tk) ?_]
        · exact dictLookup_update_self _ _ _
        · intro tk' pk' hmem' heq'
          have htk' : tk' = tk := shiftKey_inj off _ _ heq'
          subst htk'
          exact (List.nodup_cons.mp hnodup).1
            (List.mem_map.mpr ⟨(tk', pk'), hmem', rfl⟩)
      · exact ih _ _ h (List.nodup_cons.mp hnodup).2 tk pk hmem'

theorem mergeSlots_pot_new (off : ℕ) (pots : List (String × List ℚ)) :
    ∀ (entries : List (TopologyKey × String)) (selfH res : PotentialHandler),
      mergeSlots off pots entries selfH = Except.ok res →
      ∀ pk, pk ∈ entries.map Prod.snd →
        dictLookup res.potentials pk = dictLookup pots pk := by
  intro entries
  induction entries with
  | nil => intro selfH res _ pk hmem; simp at hmem
  | cons e rest ih =>
    intro selfH res h pk hmem
    obtain ⟨tk0, pk0⟩ := e
    simp only [mergeSlots] at h
    cases hp : dictLookup pots pk0 with
    | none => rw [hp] at h; simp at h
    | some pot =>
      rw [hp] at h
      by_cases hpk : pk ∈ rest.map Prod.snd
      · exact ih _ _ h pk hpk
      · have hpk0 : pk = pk0 := by
          simp only [List.map_cons, List.mem_cons] at hmem
          rcases hmem with h' | h'
          · exact h'
          · exact absurd h' hpk
        subst hpk0
        rw [mergeSlots_pot_preserved off pots rest _ res h pk ?_]
        · rw [dictLookup_update_self, hp]
        · intro tk' pk' hmem' heq'
          subst heq'
          exact hpk (List.mem_map_of_mem Prod.snd hmem')

theorem mergeSlots_pot_exists (off : ℕ) (pots : List (String × List ℚ)) :
    ∀ (entries : List (TopologyKey × String)) (selfH res : PotentialHandler),
      mergeSlots off pots entries selfH = Except.ok res →
      ∀ tk pk, (tk, pk) ∈ entries → ∃ v, dictLookup pots pk = some v := by
  intro entries
  induction entries with
  | nil => intro selfH res _ tk pk hmem; simp at hmem
  | cons e rest ih =>
    intro selfH res h tk pk hmem
    obtain ⟨tk0, pk0⟩ := e
    simp only [mergeSlots] at h
    cases hp : dictLookup pots pk0 with
    | none => rw [hp] at h; simp at h
    | some pot =>
      rw [hp] at h
      rcases List.mem_cons.mp hmem with heq | hmem'
      · obtain ⟨htk, hpk⟩ := Prod.ext_iff.mp heq
        subst hpk
        exact ⟨pot, hp⟩
      · exact ih _ _ h tk pk hmem'

theorem mergeCharges_preserves_other (off : ℕ) :
    ∀ (entries : List (TopologyKey × ℚ)) (hs hs2 : List (String × PotentialHandler)),
      mergeCharges off hs entries = Except.ok hs2 →
      ∀ name, name ≠ "Electrostatics" →
        dictLookup hs2 name = dictLookup hs name := by
  intro entries
  induction entries with
  | nil =>
    intro hs hs2 h name _
    simp only [mergeCharges, Except.ok.injEq] at h
    rw [h]
  | cons e rest ih =>
    intro hs hs2 h name hname
    obtain ⟨tk, q⟩ := e
    simp only [mergeCharges] at h
    cases hai : tk.atom_indices with
    | nil => rw [hai] at h; simp at h
    | cons first restIdx =>
      rw [hai] at h
      cases he : dictLookup hs "Electrostatics" with
      | none => rw [he] at h; simp at h
      | some elec =>
        rw [he] at h
        rw [ih _ _ h name hname]
        exact dictLookup_update_ne _ _ _ _ hname

theorem mergeHandlers_layout (off : ℕ) (av ae bv be mv : PotentialHandler)
    (hms : mergeSlots off bv.potentials bv.slot_map av = Except.ok mv) :
    mergeHandlers off [("vdW", av), ("Electrostatics", ae)]
        [("vdW", bv), ("Electrostatics", be)]
      = Except.ok [("vdW", mv), ("Electrostatics", ae)] := by
  rw [show mergeHandlers off [("vdW", av), ("Electrostatics", ae)]
        [("vdW", bv), ("Electrostatics", be)]
      = (match mergeSlots off bv.potentials bv.slot_map av with
        | Except.error e => Except.error e
        | Except.ok merged =>
          mergeHandlers off [("vdW", merged), ("Electrostatics", ae)]
            [("Electrostatics", be)]) from rfl, hms]
  rfl

theorem combineInner_layout (a b : InnerData) (av ae bv be mv : PotentialHandler)
    (hs2 : List (String × PotentialHandler)) (newPos : NpMat)
    (hA : a.handlers = [("vdW", av), ("Electrostatics", ae)])
    (hB : b.handlers = [("vdW", bv), ("Electrostatics", be)])
    (hms : mergeSlots a.nAtoms bv.potentials bv.slot_map av = Except.ok mv)
    (hmc : mergeCharges a.nAtoms [("vdW", mv), ("Electrostatics", ae)] be.charges
      = Except.ok hs2)
    (hvs : npVstack2 (npAtleast2d a.positions) (npAtleast2d b.positions)
      = Except.ok newPos)
    (hbox : boxEqPy a.box b.box = true) :
    combineInner a b
      = Except.ok ⟨hs2, a.nAtoms + b.nAtoms, a.box, some newPos⟩ := by
  unfold combineInner
  rw [hA, hB]
  dsimp only
  rw [mergeHandlers_layout a.nAtoms av ae bv be mv hms]
  dsimp only
  rw [show dictLookup [("vdW", bv), ("Electrostatics", be)] "Electrostatics"
      = some be from rfl]
  dsimp only
  rw [hmc]
  dsimp only
  rw [hvs]
  dsimp only
  rw [hbox]
  rfl

/-- C3 (amended): for containers holding a vdW and an Electrostatics
collection, combination succeeds on equal boxes using the atom-index
offset `a.nAtoms` (every right-operand slot entry reappears under its
offset key), and — provided the left vdW slot map only addresses atoms of
the left container, the right slot map has no duplicate keys, and any
potential identity present in both stores carries equal parameter values —
the combined vdW per-particle table is exactly the row-stack of the left
table followed by the right table.  (No assumption on the left slot map is
needed: an offset key can only collide with an existing key by
overwriting it with the same association.) -/
theorem combine_vdw_table_concat
    (a b : InnerData) (av ae bv be mv : PotentialHandler)
    (hs2 : List (String × PotentialHandler)) (newPos : NpMat)
    (ta tb : List (List ℚ))
    (hA : a.handlers = [("vdW", av), ("Electrostatics", ae)])
    (hB : b.handlers = [("vdW", bv), ("Electrostatics", be)])
    (hms : mergeSlots a.nAtoms bv.potentials bv.slot_map av = Except.ok mv)
    (hmc : mergeCharges a.nAtoms [("vdW", mv), ("Electrostatics", ae)] be.charges
      = Except.ok hs2)
    (hvs : npVstack2 (npAtleast2d a.positions) (npAtleast2d b.positions)
      = Except.ok newPos)
    (hbox : boxEqPy a.box b.box = true)
    (hta : get_system_parameters av a.nAtoms = some ta)
    (htb : get_system_parameters bv b.nAtoms = some tb)
    (hnodup : (bv.slot_map.map Prod.fst).Nodup)
    (hnoclash : ∀ pk v w, dictLookup av.potentials pk = some v →
        dictLookup bv.potentials pk = some w → v = w) :
    combineInner a b = Except.ok ⟨hs2, a.nAtoms + b.nAtoms, a.box, some newPos⟩
      ∧ vdwTable ⟨hs2, a.nAtoms + b.nAtoms, a.box, some newPos⟩ = some (ta ++ tb)
      ∧ (bv.slot_map.all fun p =>
          dictLookup mv.slot_map (shiftKey a.nAtoms p.1) == some p.2) = true := by
  have hcomb := combineInner_layout a b av ae bv be mv hs2 newPos hA hB hms hmc hvs hbox
  obtain ⟨lena, geta⟩ := rowsUpTo_length_get av a.nAtoms ta hta
  obtain ⟨lenb, getb⟩ := rowsUpTo_length_get bv b.nAtoms tb htb
  have rowsA : ∀ i, i < a.nAtoms → rowFor mv i = rowFor av i := by
    intro i hi
    have hslot : dictLookup mv.slot_map ⟨[i], none⟩
        = dictLookup av.slot_map ⟨[i], none⟩ := by
      apply mergeSlots_slot_preserved _ _ _ _ _ hms
      intro tk pk hmem heq
      obtain ⟨ai, mu⟩ := tk
      simp only [shiftKey, TopologyKey.mk.injEq] at heq
      obtain ⟨hmap, _⟩ := heq
      cases ai with
      | nil => simp at hmap
      | cons x xs =>
        cases xs with
        | nil =>
          simp at hmap
          omega
        | cons y ys => simp at hmap
    unfold rowFor
    rw [hslot]
    cases hpk : dictLookup av.slot_map ⟨[i], none⟩ with
    | none => rfl
    | some pk =>
      simp only [Option.bind]
      by_cases hin : pk ∈ bv.slot_map.map Prod.snd
      · rw [mergeSlots_pot_new _ _ _ _ _ hms pk hin]
        have hav : ∃ v, dictLookup av.potentials pk = some v := by
          have hrow := geta i hi
          unfold rowFor at hrow
          rw [hpk] at hrow
          simp only [Option.bind] at hrow
          have hlt : i < ta.length := by omega
          cases hv : ta.get? i with
          | none => exact absurd (List.get?_eq_none.mp hv) (by omega)
          | some v => exact ⟨v, by rw [hrow, hv]⟩
        obtain ⟨v, hv⟩ := hav
        obtain ⟨⟨tk', pk'⟩, hmem', hpk'⟩ := List.mem_map.mp hin
        have hpk'' : pk' = pk := hpk'
        subst hpk''
        obtain ⟨w, hw⟩ := mergeSlots_pot_exists _ _ _ _ _ hms tk' pk' hmem'
        rw [hw, hv, hnoclash pk' v w hv hw]
      · rw [mergeSlots_pot_preserved _ _ _ _ _ hms pk ?_]
        intro tk' pk' hmem' heq'
        exact hin (by rw [← heq']; exact List.mem_map.mpr ⟨(tk', pk'), hmem', rfl⟩)
  have rowsB : ∀ j, j < b.nAtoms → rowFor mv (a.nAtoms + j) = tb.get? j := by
    intro j hj
    have hrow := getb j hj
    have hjlen : j < tb.length := by omega
    cases hv : tb.get? j with
    | none => exact absurd (List.get?_eq_none.mp hv) (by omega)
    | some row =>
      rw [hv] at hrow
      unfold rowFor at hrow
      cases hpk : dictLookup bv.slot_map ⟨[j], none⟩ with
      | none => rw [hpk] at hrow; simp at hrow
      | some pk =>
        rw [hpk] at hrow
        simp only [Option.bind] at hrow
        have hmem := dictLookup_mem _ _ _ hpk
        have hslot := mergeSlots_slot_new _ _ _ _ _ hms hnodup _ _ hmem
        have hshift : shiftKey a.nAtoms ⟨[j], none⟩
            = (⟨[a.nAtoms + j], none⟩ : TopologyKey) := by
          simp [shiftKey, Nat.add_comm]
        rw [hshift] at hslot
        unfold rowFor
        rw [hslot]
        simp only [Option.bind]
        rw [mergeSlots_pot_new _ _ _ _ _ hms pk (List.mem_map.mpr ⟨_, hmem, rfl⟩),
          hrow]
  have hrowsA : rowsUpTo mv a.nAtoms = some ta := by
    rw [rowsUpTo_congr mv av a.nAtoms rowsA]
    exact hta
  have hrowsFull : rowsUpTo mv (a.nAtoms + tb.length)
      = some (ta ++ tb.take tb.length) :=
    rowsUpTo_extend mv a.nAtoms ta tb hrowsA
      (fun j hjl => rowsB j (by omega)) tb.length (le_refl _)
  rw [List.take_length] at hrowsFull
  have hlenb' : a.nAtoms + tb.length = a.nAtoms + b.nAtoms := by omega
  rw [hlenb'] at hrowsFull
  have hlook : dictLookup hs2 "vdW" = some mv := by
    rw [mergeCharges_preserves_other a.nAtoms be.charges _ hs2 hmc "vdW" (by decide)]
    rfl
  refine ⟨hcomb, ?_, ?_⟩
  · unfold vdwTable get_system_parameters
    dsimp only
    rw [hlook]
    simp only [Option.bind]
    exact hrowsFull
  · rw [List.all_eq_true]
    intro p hp
    rw [beq_iff_eq]
    exact mergeSlots_slot_new _ _ _ _ _ hms hnodup p.1 p.2 hp

/-- Witness for C3: one-atom operands with distinct potential identities
`a0`/`b0`; the combined table is the concatenation `[[1,2],[3,4]]`. -/
theorem combine_vdw_table_concat_witness :
    combineInner c3w_a c3w_b
        = Except.ok ⟨c3w_hs2, 2, none, some [[NpCell.pyNone], [NpCell.pyNone]]⟩
      ∧ vdwTable ⟨c3w_hs2, 2, none, some [[NpCell.pyNone], [NpCell.pyNone]]⟩
        = some [[1, 2], [3, 4]]
      ∧ (c3w_bv.slot_map.all fun p =>
          dictLookup c3w_mv.slot_map (shiftKey 1 p.1) == some p.2) = true :=
  combine_vdw_table_concat c3w_a c3w_b c3w_av c3w_ae c3w_bv c3w_be c3w_mv c3w_hs2
    [[NpCell.pyNone], [NpCell.pyNone]] [[1, 2]] [[3, 4]]
    rfl rfl (by decide) (by decide) (by decide) (by decide) (by decide) (by decide)
    (by decide)
    (by
      intro pk v w h1 h2
      have m1 := dictLookup_mem _ _ _ h1
      have m2 := dictLookup_mem _ _ _ h2
      simp [c3w_av] at m1
      simp [c3w_bv] at m2
      rw [m1.1] at m2
      exact absurd m2.1 (by decide))

/-- C3 counterexample: two containers with equal (absent) boxes whose
vdW stores share the potential identity `P` with different parameter
values; the combined table is `[[2],[2]]` (the right value overwrote the
left), not the row-stack `[[1],[2]]` of the operands tables. -/
theorem combine_vdw_table_clash :
    (combineInner c3c_a c3c_b).map vdwTable = Except.ok (some [[2], [2]])
      ∧ vdwTable c3c_a = some [[1]]
      ∧ vdwTable c3c_b = some [[2]]
      ∧ (some ([[(1 : ℚ)]] ++ [[(2 : ℚ)]]) ≠ some [[(2 : ℚ)], [2]]) :=
  ⟨by decide, by decide, by decide, by decide⟩
